import Mathlib

/-!
Shallow embedding of the stability-pattern wrappers of the `cloud-native`
repository (Go): `Retry`, `Breaker`, `Throttle`, `DebounceFirst`,
`DebounceLast`, `Timeout` and `TimeoutWithPrecheck`.

Modelling conventions, shared by every component:
  * a Go `(string, error)` result is `String × Option Err`; a `nil` error is
    `none`;
  * wall-clock instants are natural numbers (seconds for the breaker, whose
    cooldowns are whole seconds in the source; abstract ticks elsewhere);
  * a wrapped operation is represented by the value it returns on a given
    invocation; stateful wrappers become explicit step functions on a state
    record, and each step additionally reports whether the inner operation
    was invoked (`Bool`), which the Go code shows by control flow.
-/

namespace CloudNative

/-- Error values observable at the wrapper boundary: the breaker's
`ErrServiceUnavailable` sentinel, the throttle's "too many calls" error,
a context's cancellation / deadline errors, and opaque upstream operation
errors carrying a message. -/
inductive Err where
  | serviceUnavailable
  | tooManyCalls
  | contextCanceled
  | deadlineExceeded
  | opErr (msg : String)
deriving DecidableEq

/-! ## Retry (retry/retry.go)

The Go loop is

  for r := 0; ; r++ {
      response, err := effector(ctx)
      if err != nil || r >= maxRetries { return response, err }
      log.Printf(...)            -- the delay is logged, never waited on
  }

The effector is modelled as a function from the invocation index `r` to the
`(response, err)` pair it produces on that invocation.  The loop index `r`
counts up and the loop exits no later than `r = maxRetries`, so we recurse
structurally on `remaining = maxRetries - r`; `Retry.go eff r remaining`
is the loop from index `r` on, and it also returns the total number of
invocations performed (`r + 1` at the exit point, matching the source where
the exiting iteration is the `r`-th, zero-based). -/

/-- Loop body of `Retry` from index `r` with `remaining = maxRetries - r`
attempts left; returns the final `(response, err)` and the total invocation
count. -/
def Retry.go (eff : Nat → String × Option Err) :
    Nat → Nat → (String × Option Err) × Nat
  | r, remaining =>
    let out := eff r
    if out.2.isSome then (out, r + 1)
    else
      match remaining with
      | 0 => (out, r + 1)
      | rem + 1 => Retry.go eff (r + 1) rem

/-- A call to the `Retry`-wrapped effector: runs the loop from `r = 0`. -/
def Retry.run (eff : Nat → String × Option Err) (maxRetries : Nat) :
    (String × Option Err) × Nat :=
  Retry.go eff 0 maxRetries

/-! ## Circuit breaker (circuit-breaker/circuit_breaker.go) -/

/-- Closure state of one `Breaker` instance: the failure counter and the
timestamp (in seconds) of the last attempt. -/
structure BreakerState where
  failures : Nat
  last : Nat
deriving DecidableEq

/-- One call to the `Breaker`-wrapped circuit.  `op` is the pair the inner
circuit would return on this call, `tNow` is `time.Now()` at the admission
check and `tAfter` is `time.Now()` after the inner call returns.  The Go
code rejects when `failures - threshold ≥ 0` and `!time.Now().After(last +
(2 << d) * time.Second)`, i.e. when `tNow ≤ last + 2 <<< d`.  Returns the
caller-visible pair, the new state, and whether `op` was invoked. -/
def Breaker.step (threshold : Nat) (op : String × Option Err)
    (s : BreakerState) (tNow tAfter : Nat) :
    (String × Option Err) × BreakerState × Bool :=
  if threshold ≤ s.failures ∧ tNow ≤ s.last + (2 <<< (s.failures - threshold)) then
    (("", some Err.serviceUnavailable), s, false)
  else if op.2 ≠ none then
    (op, ⟨s.failures + 1, tAfter⟩, true)
  else
    (op, ⟨0, tAfter⟩, true)

/-! ## Throttle (throttle/throttle.go)

State is the current token count (`uint` in Go, hence `Nat`); it starts at
`max`.  The background refill loop wakes every interval and executes
`tokens = min(tokens+refill, max)`; a call first checks `ctx.Err()`, then
under the mutex rejects when `tokens <= 0` (i.e. `= 0` for a `uint`) and
otherwise decrements and invokes the effector.  We model the interleaving
of refill ticks and calls as a list of events folded over the token
count. -/

/-- An event touching a Throttle instance's token count: a refill tick, or
a call (`ctxDone` records whether the caller's context was already
cancelled at entry, in which case the count is untouched). -/
inductive ThrottleEvent where
  | tick
  | call (ctxDone : Bool)
deriving DecidableEq

/-- Effect of one event on the token count, as in the Go source: a tick
sets `tokens = min(tokens+refill, max)`; an admitted call decrements;
a rejected call (context done or empty bucket) leaves the count alone. -/
def Throttle.applyEvent (max refill : Nat) (tokens : Nat) :
    ThrottleEvent → Nat
  | .tick => min (tokens + refill) max
  | .call true => tokens
  | .call false => if tokens = 0 then tokens else tokens - 1

/-- Token count of a Throttle instance after a sequence of events, starting
from the initial value `tokens = max`. -/
def Throttle.runTokens (max refill : Nat) (events : List ThrottleEvent) : Nat :=
  events.foldl (Throttle.applyEvent max refill) max

/-- One call to the `Throttle`-wrapped effector: `eff` is the pair the inner
effector would return, `ctxErr` is `ctx.Err()` at entry, `tokens` the
current count.  Returns the caller-visible pair, the new count, and whether
the effector was invoked. -/
def Throttle.call (eff : String × Option Err) (ctxErr : Option Err)
    (tokens : Nat) : (String × Option Err) × Nat × Bool :=
  match ctxErr with
  | some e => (("", some e), tokens, false)
  | none =>
    if tokens = 0 then (("", some Err.tooManyCalls), tokens, false)
    else (eff, tokens - 1, true)

/-! ## DebounceFirst (debounce, leading-edge cached) -/

/-- Closure state of one `DebounceFirst` instance: the end of the current
suppression window and the cached `(result, err)` pair. -/
structure DebounceFirstState where
  threshold : Nat
  result : String
  err : Option Err
deriving DecidableEq

/-- One call to the `DebounceFirst`-wrapped circuit.  `circuit` is the pair
the inner circuit would return, `tNow` is `time.Now()` at entry and
`tAfter` is `time.Now()` after the inner call returns (the Go code sets
`threshold = time.Now().Add(d)` only after `circuit` has returned).
Returns the caller-visible pair, the new state, and whether the circuit
was invoked. -/
def DebounceFirst.call (circuit : String × Option Err) (d : Nat)
    (s : DebounceFirstState) (tNow tAfter : Nat) :
    (String × Option Err) × DebounceFirstState × Bool :=
  if tNow < s.threshold then ((s.result, s.err), s, false)
  else (circuit, ⟨tAfter + d, circuit.1, circuit.2⟩, true)

/-! ## DebounceLast (debounce, trailing-edge)

Sequential-time model of the timer/cancel logic.  A sequence of calls
arrives at instants `ts = [t₀, t₁, …]` (in order).  Call `i` stops the
pending timer of call `i-1` and cancels its in-flight context, then
schedules its own timer at `tᵢ + d`.  Hence the timer of call `i` fires
iff no later call arrives strictly before `tᵢ + d` (a simultaneous arrival
at exactly `tᵢ + d` races the timer in Go; the model resolves the race
toward the timer firing, which the burst theorems never rely on).  A call
whose timer fires blocks on the result channel and returns the circuit's
pair, evaluated on that call's derived context (modelled by passing the
call's index to `circuit`); a superseded call returns `("", cctx.Err())`,
i.e. its own context's cancellation error. -/

/-- Whether the timer scheduled by call `i` in the arrival sequence `ts`
fires: true iff there is no call `i+1`, or call `i+1` arrives no earlier
than `ts[i] + d`. -/
def DebounceLast.firesAt (d : Nat) (ts : List Nat) (i : Nat) : Bool :=
  if i + 1 < ts.length then decide (ts[i]! + d ≤ ts[i + 1]!) else true

/-- Caller-visible results of the calls arriving at instants `ts` to one
`DebounceLast` instance; `circuit i` is the pair the inner circuit returns
when invoked under call `i`'s context. -/
def DebounceLast.run (circuit : Nat → String × Option Err) (d : Nat)
    (ts : List Nat) : List (String × Option Err) :=
  (List.range ts.length).map fun i =>
    if DebounceLast.firesAt d ts i then circuit i
    else ("", some Err.contextCanceled)

/-- Number of invocations of the inner circuit over the arrival sequence
`ts`: one per fired timer. -/
def DebounceLast.invocations (d : Nat) (ts : List Nat) : Nat :=
  ((List.range ts.length).filter fun i => DebounceLast.firesAt d ts i).length

/-! ## Timeout (timeout/timeout.go)

A context is modelled by the instant at which its `Done` channel closes
(`none` = never) and the error `ctx.Err()` reports from then on.  A
`SlowFunction` is modelled by the pair it returns together with its running
time `T`; it offers no cancellation hook, so once started it always runs
to completion (`fnCompleted = started` in every outcome below).  The
`select` race is decided by comparing the instant the result channel is
filled (`t0 + T`) with the instant the `Done` channel is seen
(`max doneAt t0` — a context already done at entry is observed at entry).
A tie is nondeterministic in Go; the model resolves it toward the context
branch, and the theorems only constrain strict orderings. -/

/-- Context model: the instant `Done` closes, and the error reported. -/
structure Ctx where
  doneAt : Option Nat
  err : Err
deriving DecidableEq

/-- Value of `ctx.Err()` at instant `t`. -/
def Ctx.errAt (c : Ctx) (t : Nat) : Option Err :=
  match c.doneAt with
  | none => none
  | some dl => if dl ≤ t then some c.err else none

/-- Outcome of one call to a wrapped slow function: the caller-visible
pair, whether the worker goroutine was started, and whether the slow
function ran to completion. -/
structure TimeoutOutcome where
  ret : String × Option Err
  started : Bool
  fnCompleted : Bool
deriving DecidableEq

/-- One call at instant `t0` to `Timeout(fn)` where `fn arg` takes `T`
ticks and returns the pair `fn arg`: the goroutine is always started and
the select race decides the returned pair. -/
def Timeout (fn : String → String × Option Err) (T : Nat) (arg : String)
    (c : Ctx) (t0 : Nat) : TimeoutOutcome :=
  match c.doneAt with
  | none => ⟨fn arg, true, true⟩
  | some dl =>
    if t0 + T < max dl t0 then ⟨fn arg, true, true⟩
    else ⟨("", some c.err), true, true⟩

/-- One call at instant `t0` to `TimeoutWithPrecheck(fn)`: if `ctx.Err()`
is already non-nil at entry the goroutine is never started; otherwise the
body is the same race as `Timeout`. -/
def TimeoutWithPrecheck (fn : String → String × Option Err) (T : Nat)
    (arg : String) (c : Ctx) (t0 : Nat) : TimeoutOutcome :=
  match c.errAt t0 with
  | some e => ⟨("", some e), false, false⟩
  | none =>
    match c.doneAt with
    | none => ⟨fn arg, true, true⟩
    | some dl =>
      if t0 + T < max dl t0 then ⟨fn arg, true, true⟩
      else ⟨("", some c.err), true, true⟩

/-! ## Theorems -/

/-- Helper for the retry theorems: when every invocation of the effector
succeeds, the loop body starting at index `r` with `remaining` attempts
left returns the pair of invocation `r + remaining` after
`r + remaining + 1` total invocations. -/
theorem Retry.go_of_allOk (eff : Nat → String × Option Err)
    (h : ∀ n, (eff n).2 = none) :
    ∀ remaining r, Retry.go eff r remaining
      = (eff (r + remaining), r + remaining + 1) := by
  intro remaining
  induction remaining with
  | zero =>
    intro r
    simp [Retry.go, h r]
  | succ rem ih =>
    intro r
    have harith : r + 1 + rem = r + (rem + 1) := by omega
    simp only [Retry.go, h r, Option.isSome_none, Bool.false_eq_true, if_false]
    rw [ih (r + 1), harith]

/-- C1 (code-bug evidence): with an effector that fails on its first
invocation and succeeds on every later one, and `maxRetries = 2`, the
`Retry` wrapper returns the first failure after a single invocation — the
loop exits as soon as `err != nil`, so a failed call is never retried,
contradicting the documented algorithm (and the unused `delay` is only
logged, never waited on). -/
theorem retry_returns_first_failure :
    Retry.run (fun n => if n = 0 then ("", some (Err.opErr "boom")) else ("ok", none)) 2
      = (("", some (Err.opErr "boom")), 1) := by
  rfl

/-- C9: for an effector that never fails, the `Retry`-wrapped operation
re-invokes it until the attempt budget is exhausted — exactly
`maxRetries + 1` total invocations — and returns the `(value, error)` pair
of the final invocation. -/
theorem retry_success_exhausts_budget (eff : Nat → String × Option Err)
    (maxRetries : Nat) (h : ∀ n, (eff n).2 = none) :
    Retry.run eff maxRetries = (eff maxRetries, maxRetries + 1) := by
  unfold Retry.run
  rw [Retry.go_of_allOk eff h maxRetries 0]
  simp

/-- Witness for C9 at a concrete always-succeeding effector and
`maxRetries = 2`: three invocations, final pair returned. -/
theorem retry_success_exhausts_budget_witness :
    Retry.run (fun _ => ("ok", none)) 2 = (("ok", none), 3) :=
  retry_success_exhausts_budget (fun _ => ("ok", none)) 2 (fun _ => rfl)

/-- C2: while `failures ≥ threshold` and the current time has not passed
`last + 2^(failures - threshold + 1)` seconds, a call to the
`Breaker`-wrapped circuit returns the empty result with the
`ServiceUnavailable` sentinel, does not invoke the inner circuit, and
leaves the failure counter and last-attempt timestamp unchanged. -/
theorem breaker_open_rejects (threshold : Nat) (op : String × Option Err)
    (s : BreakerState) (tNow tAfter : Nat)
    (hopen : threshold ≤ s.failures)
    (hcool : tNow ≤ s.last + 2 ^ (s.failures - threshold + 1)) :
    Breaker.step threshold op s tNow tAfter
      = (("", some Err.serviceUnavailable), s, false) := by
  have hsh : (2 : Nat) <<< (s.failures - threshold)
      = 2 ^ (s.failures - threshold + 1) := by
    rw [Nat.shiftLeft_eq]
    exact (pow_succ' 2 _).symm
  unfold Breaker.step
  rw [if_pos ⟨hopen, by rw [hsh]; exact hcool⟩]

/-- Witness for C2: threshold 1, two failures, last attempt at second 10;
the cooldown is `2^2 = 4` seconds, so a call at second 14 is rejected
with state untouched. -/
theorem breaker_open_rejects_witness :
    Breaker.step 1 ("x", none) ⟨2, 10⟩ 14 15
      = (("", some Err.serviceUnavailable), ⟨2, 10⟩, false) :=
  breaker_open_rejects 1 ("x", none) ⟨2, 10⟩ 14 15 (by decide) (by decide)

/-- C3: across every call to the `Breaker`-wrapped circuit, the failure
counter becomes 0 exactly when the inner circuit was invoked and
succeeded, becomes `failures + 1` exactly when it was invoked and failed,
and is unchanged otherwise; the last-attempt timestamp is set to the
post-invocation time exactly when the circuit was invoked; and whenever
the circuit was invoked its `(response, err)` pair is returned verbatim. -/
theorem breaker_state_transitions (threshold : Nat) (op : String × Option Err)
    (s : BreakerState) (tNow tAfter : Nat) :
    (Breaker.step threshold op s tNow tAfter).2.1.failures
        = (if (Breaker.step threshold op s tNow tAfter).2.2 = true then
             (if op.2 = none then 0 else s.failures + 1)
           else s.failures)
    ∧ (Breaker.step threshold op s tNow tAfter).2.1.last
        = (if (Breaker.step threshold op s tNow tAfter).2.2 = true then tAfter
           else s.last)
    ∧ (Breaker.step threshold op s tNow tAfter).1
        = (if (Breaker.step threshold op s tNow tAfter).2.2 = true then op
           else ("", some Err.serviceUnavailable)) := by
  unfold Breaker.step
  split
  · simp
  · split <;> simp_all

/-- C4: in every Throttle instance with capacity `max`, the token count is
`max` at initialization and, after any interleaving of refill ticks and
per-call admission decisions, never exceeds the capacity (it is a `Nat`,
so it also never goes negative). -/
theorem throttle_tokens_bounded (max refill : Nat)
    (events : List ThrottleEvent) :
    Throttle.runTokens max refill [] = max
    ∧ Throttle.runTokens max refill events ≤ max := by
  constructor
  · rfl
  · have step : ∀ (t : Nat) (e : ThrottleEvent), t ≤ max →
        Throttle.applyEvent max refill t e ≤ max := by
      intro t e ht
      match e with
      | .tick => exact Nat.min_le_right _ _
      | .call true => exact ht
      | .call false =>
        simp only [Throttle.applyEvent]
        split
        · exact ht
        · omega
    have key : ∀ (evs : List ThrottleEvent) (t : Nat), t ≤ max →
        evs.foldl (Throttle.applyEvent max refill) t ≤ max := by
      intro evs
      induction evs with
      | nil => intro t ht; simpa using ht
      | cons e rest ih =>
        intro t ht
        simpa only [List.foldl_cons] using ih _ (step t e ht)
    exact key events max le_rfl

/-- C5: a call to the `Throttle`-wrapped effector with the caller's context
already cancelled returns the context's error without consuming a token or
invoking the effector; with an empty bucket it is rejected with the
rate-limited error, again without invocation; otherwise exactly one token
is consumed and the effector's pair is returned verbatim. -/
theorem throttle_admission (eff : String × Option Err) (ctxErr : Option Err)
    (tokens : Nat) :
    (∀ e, ctxErr = some e →
        Throttle.call eff ctxErr tokens = (("", some e), tokens, false))
    ∧ (ctxErr = none → tokens = 0 →
        Throttle.call eff ctxErr tokens
          = (("", some Err.tooManyCalls), tokens, false))
    ∧ (ctxErr = none → 0 < tokens →
        Throttle.call eff ctxErr tokens = (eff, tokens - 1, true)) := by
  refine ⟨?_, ?_, ?_⟩
  · intro e he
    subst he
    rfl
  · intro h1 h2
    subst h1
    subst h2
    rfl
  · intro h1 h2
    subst h1
    simp only [Throttle.call]
    rw [if_neg (by omega)]

/-- Witness for C5: the three admission outcomes at concrete inputs. -/
theorem throttle_admission_witness :
    Throttle.call ("v", none) (some Err.contextCanceled) 5
        = (("", some Err.contextCanceled), 5, false)
    ∧ Throttle.call ("v", none) none 0
        = (("", some Err.tooManyCalls), 0, false)
    ∧ Throttle.call ("v", none) none 3 = (("v", none), 2, true) :=
  ⟨(throttle_admission _ _ _).1 _ rfl,
   (throttle_admission _ _ _).2.1 rfl rfl,
   (throttle_admission _ _ _).2.2 rfl (by decide)⟩

/-- C6: a call to the `DebounceFirst`-wrapped circuit arriving strictly
before the next-allowed timestamp returns exactly the cached
`(value, error)` pair without invoking the circuit and without touching
the state; a call at or after that timestamp invokes the circuit, caches
its pair, and sets the next-allowed timestamp to `window` after the
instant the executing call returned. -/
theorem debounceFirst_window (circuit : String × Option Err) (d : Nat)
    (s : DebounceFirstState) (tNow tAfter : Nat) :
    (tNow < s.threshold →
        DebounceFirst.call circuit d s tNow tAfter
          = ((s.result, s.err), s, false))
    ∧ (s.threshold ≤ tNow →
        DebounceFirst.call circuit d s tNow tAfter
          = (circuit, ⟨tAfter + d, circuit.1, circuit.2⟩, true)) := by
  constructor
  · intro h
    simp [DebounceFirst.call, h]
  · intro h
    simp [DebounceFirst.call, Nat.not_lt.mpr h]

/-- Witness for C6: a suppressed call (arriving at 3, window ends at 5)
returning the cache, and an executing call (arriving at 5) refreshing the
cache and pushing the window to 16. -/
theorem debounceFirst_window_witness :
    DebounceFirst.call ("new", none) 10 ⟨5, "cached", some (Err.opErr "e")⟩ 3 4
        = (("cached", some (Err.opErr "e")), ⟨5, "cached", some (Err.opErr "e")⟩, false)
    ∧ DebounceFirst.call ("new", none) 10 ⟨5, "cached", some (Err.opErr "e")⟩ 5 6
        = (("new", none), ⟨16, "new", none⟩, true) :=
  ⟨(debounceFirst_window _ _ _ _ _).1 (by decide),
   (debounceFirst_window _ _ _ _ _).2 (by decide)⟩

/-- C7: for a burst of `N ≥ 1` calls to the `DebounceLast`-wrapped circuit,
each arriving strictly less than `window` after the previous one, the inner
circuit is invoked exactly once, under the context derived from the last
call of the burst (the last result is `circuit (N-1)`); every superseded
earlier call returns its own context's cancellation error and never a
cached value. -/
theorem debounceLast_burst (circuit : Nat → String × Option Err) (d : Nat)
    (ts : List Nat) (hne : ts ≠ [])
    (hburst : ∀ i, i + 1 < ts.length → ts[i + 1]! < ts[i]! + d) :
    DebounceLast.run circuit d ts
      = List.replicate (ts.length - 1) ("", some Err.contextCanceled)
        ++ [circuit (ts.length - 1)]
    ∧ DebounceLast.invocations d ts = 1 := by
  obtain ⟨m, hm⟩ : ∃ m, ts.length = m + 1 := by
    cases h : ts.length with
    | zero => exact absurd (List.length_eq_zero.mp h) hne
    | succ k => exact ⟨k, rfl⟩
  have hfalse : ∀ i, i + 1 < ts.length → DebounceLast.firesAt d ts i = false := by
    intro i hi
    unfold DebounceLast.firesAt
    rw [if_pos hi]
    simp only [decide_eq_false_iff_not]
    have := hburst i hi
    omega
  have htrue : DebounceLast.firesAt d ts m = true := by
    unfold DebounceLast.firesAt
    rw [if_neg (by omega)]
  constructor
  · unfold DebounceLast.run
    rw [hm, List.range_succ, List.map_append]
    have hcongr : ∀ i ∈ List.range m,
        (if DebounceLast.firesAt d ts i then circuit i
         else ("", some Err.contextCanceled))
          = (fun _ => (("", some Err.contextCanceled) : String × Option Err)) i := by
      intro i hi
      rw [hfalse i (by have := List.mem_range.mp hi; omega)]
      simp
    rw [List.map_congr_left hcongr]
    simp [htrue]
  · unfold DebounceLast.invocations
    rw [hm, List.range_succ, List.filter_append]
    have h1 : (List.range m).filter
        (fun i => DebounceLast.firesAt d ts i) = [] := by
      rw [List.filter_eq_nil_iff]
      intro a ha
      rw [hfalse a (by have := List.mem_range.mp ha; omega)]
      exact Bool.false_ne_true
    have h2 : [m].filter (fun i => DebounceLast.firesAt d ts i) = [m] := by
      simp [List.filter, htrue]
    rw [h1, h2]
    rfl

/-- Witness for C7: a burst of three calls at instants 0, 1, 2 with window
5; the two superseded calls observe cancellation, the circuit fires once
under the last call's context. -/
theorem debounceLast_burst_witness :
    DebounceLast.run (fun i => (toString i, none)) 5 [0, 1, 2]
        = [("", some Err.contextCanceled), ("", some Err.contextCanceled),
           ("2", none)]
    ∧ DebounceLast.invocations 5 [0, 1, 2] = 1 := by
  have h := debounceLast_burst (fun i => (toString i, none)) 5 [0, 1, 2]
    (by decide)
    (by
      intro i hi
      have hi2 : i < 2 := by simp at hi; omega
      interval_cases i <;> decide)
  exact ⟨by rw [h.1]; rfl, h.2⟩

/-- C8: for both `Timeout` and `TimeoutWithPrecheck`, if the slow function
completes strictly before the context is done (in particular whenever the
context is never done), its `(result, error)` pair is returned verbatim;
if the context is done strictly first, the call returns the empty string
with the context's error, and the slow function — which offers no
cancellation hook — runs to completion whenever it was started, its
eventual result discarded. -/
theorem timeout_race (fn : String → String × Option Err) (T : Nat)
    (arg : String) (c : Ctx) (t0 : Nat) :
    ((∀ dl, c.doneAt = some dl → t0 + T < dl) →
        Timeout fn T arg c t0 = ⟨fn arg, true, true⟩
        ∧ TimeoutWithPrecheck fn T arg c t0 = ⟨fn arg, true, true⟩)
    ∧ (∀ dl, c.doneAt = some dl → max dl t0 < t0 + T →
        (Timeout fn T arg c t0).ret = ("", some c.err)
        ∧ (TimeoutWithPrecheck fn T arg c t0).ret = ("", some c.err)
        ∧ (Timeout fn T arg c t0).fnCompleted
            = (Timeout fn T arg c t0).started
        ∧ (TimeoutWithPrecheck fn T arg c t0).fnCompleted
            = (TimeoutWithPrecheck fn T arg c t0).started) := by
  constructor
  · intro h
    cases hdone : c.doneAt with
    | none =>
      exact ⟨by simp [Timeout, hdone], by simp [TimeoutWithPrecheck, Ctx.errAt, hdone]⟩
    | some dl =>
      have hT := h dl hdone
      have hmax : t0 + T < max dl t0 := lt_of_lt_of_le hT (le_max_left _ _)
      have hnd : ¬ dl ≤ t0 := by omega
      exact ⟨by simp [Timeout, hdone, hmax],
        by simp [TimeoutWithPrecheck, Ctx.errAt, hdone, hnd, hmax]⟩
  · intro dl hdone hlt
    have hnot : ¬ (t0 + T < max dl t0) := by omega
    by_cases hdl : dl ≤ t0
    · refine ⟨?_, ?_, ?_, ?_⟩ <;>
        simp [Timeout, TimeoutWithPrecheck, Ctx.errAt, hdone, hdl, hnot]
    · refine ⟨?_, ?_, ?_, ?_⟩ <;>
        simp [Timeout, TimeoutWithPrecheck, Ctx.errAt, hdone, hdl, hnot]

/-- Witness for C8: with deadline 10 and a 3-tick function started at 0,
both variants return the function's pair; with deadline 5 and a 9-tick
function started at 2, both variants return the deadline error. -/
theorem timeout_race_witness :
    Timeout (fun a => (a, none)) 3 "x" ⟨some 10, Err.deadlineExceeded⟩ 0
        = ⟨("x", none), true, true⟩
    ∧ TimeoutWithPrecheck (fun a => (a, none)) 3 "x"
          ⟨some 10, Err.deadlineExceeded⟩ 0
        = ⟨("x", none), true, true⟩
    ∧ (Timeout (fun a => (a, none)) 9 "x" ⟨some 5, Err.deadlineExceeded⟩ 2).ret
        = ("", some Err.deadlineExceeded)
    ∧ (TimeoutWithPrecheck (fun a => (a, none)) 9 "x"
          ⟨some 5, Err.deadlineExceeded⟩ 2).ret
        = ("", some Err.deadlineExceeded) := by
  have h1 := (timeout_race (fun a => (a, none)) 3 "x"
      ⟨some 10, Err.deadlineExceeded⟩ 0).1
    (by intro dl hdl; injection hdl with h; omega)
  have h2 := (timeout_race (fun a => (a, none)) 9 "x"
      ⟨some 5, Err.deadlineExceeded⟩ 2).2 5 rfl (by decide)
  exact ⟨h1.1, h1.2, h2.1, h2.2.1⟩

/-- C10: `Timeout` always starts the worker task; whenever the context is
not already done at entry, `TimeoutWithPrecheck` behaves identically to
`Timeout` (same returned pair, same started and completion flags); the two
can differ only when the context is already done at entry, where
`TimeoutWithPrecheck` returns the context's error without starting the
task. -/
theorem timeout_precheck_equiv (fn : String → String × Option Err) (T : Nat)
    (arg : String) (c : Ctx) (t0 : Nat) :
    (Timeout fn T arg c t0).started = true
    ∧ (c.errAt t0 = none →
        TimeoutWithPrecheck fn T arg c t0 = Timeout fn T arg c t0)
    ∧ (∀ e, c.errAt t0 = some e →
        TimeoutWithPrecheck fn T arg c t0 = ⟨("", some e), false, false⟩) := by
  refine ⟨?_, ?_, ?_⟩
  · cases hc : c.doneAt with
    | none => simp [Timeout, hc]
    | some dl =>
      simp only [Timeout, hc]
      split <;> rfl
  · intro h
    unfold TimeoutWithPrecheck
    rw [h]
    rfl
  · intro e he
    unfold TimeoutWithPrecheck
    rw [he]

/-- Witness for C10: with deadline 10, at entry instant 0 the two variants
agree; at entry instant 12 the precheck variant rejects without starting
the task. -/
theorem timeout_precheck_equiv_witness :
    TimeoutWithPrecheck (fun a => (a, none)) 3 "x"
        ⟨some 10, Err.deadlineExceeded⟩ 0
      = Timeout (fun a => (a, none)) 3 "x" ⟨some 10, Err.deadlineExceeded⟩ 0
    ∧ TimeoutWithPrecheck (fun a => (a, none)) 3 "x"
        ⟨some 10, Err.deadlineExceeded⟩ 12
      = ⟨("", some Err.deadlineExceeded), false, false⟩ :=
  ⟨(timeout_precheck_equiv _ _ _ _ _).2.1 (by decide),
   (timeout_precheck_equiv _ _ _ _ _).2.2 _ (by decide)⟩

end CloudNative
